import Mathlib

/-!
Verification development for `tools/nocompile_driver.py`, the "negative
compile" test driver: case extraction from `#if`/`#elif` directives,
command-line construction, the bounded-concurrency scheduler with its
timeout-escalation loop, and result classification.

Python dictionaries are embedded as Lean structures; timestamps
(`time.time()` floats) are embedded as `Nat` (only their ordering and
identity matter to the driver's control flow); process exit codes
(`proc.poll()`) as `Int` (negative for signal deaths); fallible Python
code (assertion failures, exceptions) as `Except String` / `Option`.
-/

/-- Embeds the object returned by `re.compile(regex_str)`.  The driver only
ever consults `regexp.search(text) is not None` and `regexp.pattern`, so a
compiled pattern is embedded as its pattern text together with its search
predicate `String → Bool`; theorems about classification quantify over
arbitrary predicates, leaving the regex engine itself out of scope. -/
structure RegexPat where
  pattern : String
  search : String → Bool

/-- Embeds one test-configuration dictionary produced by
`ExtractTestConfigs`: `{name, suite_name, expectations}`.  `expectations`
is `none` for the compiler sanity check (Python `None`), and `some l` for
a (possibly empty) list of compiled patterns. -/
structure TestConfig where
  name : String
  suite_name : String
  expectations : Option (List RegexPat)

/-- Embeds the test dictionary returned by `StartTest` (minus the live
`proc` handle, which is passed to the classifier as captured
stdout/stderr and exit code). -/
structure TestRun where
  name : String
  suite_name : String
  cmdline : String
  started_at : Nat
  terminate_timeout : Nat
  kill_timeout : Nat
  aborted_at : Nat
  finished_at : Nat
  expectations : Option (List RegexPat)

/-- Embeds the failure reasons that `ProcessTestResult` passes to
`FailTest`.  The Python code renders each as a formatted string; the
constructors keep the data that the format strings interpolate
(`timedOut` keeps the two timestamps of
`"Compile timed out. Started %f ended %f."`, and
`expectationsDidNotMatch` keeps the pattern texts joined into
`"Expectations [...] did not match output."`). -/
inductive FailReason where
  | timedOut (started_at aborted_at : Nat)
  | sanityCompileFailed
  | unexpectedSuccessfulCompilation
  | expectationsDidNotMatch (patterns : List String)
deriving DecidableEq

/-- Embeds what one classified test contributes to the result file: a
`PassTest` entry for a started test, a `FailTest` diagnostic block, or a
`PassTest` entry for a disabled (never started) configuration. -/
inductive Verdict where
  | pass
  | fail (reason : FailReason) (stdout stderr : Option String)
  | skipped
deriving DecidableEq

/-- Embeds `ProcessTestResult(resultfile, test)` (nocompile_driver.py
lines 313-364) as a pure function from the finished test record and its
captured streams and exit code to the single verdict it writes.  The
branch order mirrors the source: aborted check, sanity (`expectations is
None`) check, successful-compile check, empty-expectation check, then the
first-match search over the expectation list (stdout probed before
stderr). -/
def ProcessTestResult (test : TestRun) (stdout stderr : String)
    (returncode : Int) : Verdict :=
  if test.aborted_at ≠ 0 then
    Verdict.fail (FailReason.timedOut test.started_at test.aborted_at) none none
  else
    match test.expectations with
    | none =>
      if returncode = 0 then
        Verdict.pass
      else
        Verdict.fail FailReason.sanityCompileFailed (some stdout) (some stderr)
    | some exps =>
      if returncode = 0 then
        Verdict.fail FailReason.unexpectedSuccessfulCompilation
          (some stdout) (some stderr)
      else if exps.isEmpty then
        Verdict.pass
      else
        match exps.find? (fun p => p.search stdout || p.search stderr) with
        | some _ => Verdict.pass
        | none =>
          Verdict.fail
            (FailReason.expectationsDidNotMatch (exps.map (fun p => p.pattern)))
            (some stdout) (some stderr)

/-- Helper predicate: some expectation pattern matches the captured
stdout or the captured stderr (the disjunction `ProcessTestResult` tests
for each pattern). -/
def anyExpectationMatches (exps : List RegexPat) (stdout stderr : String) : Bool :=
  exps.any (fun p => p.search stdout || p.search stderr)

/-- Embeds the Python 2 `\s` character class `[ \t\n\r\f\v]` used by the
driver's regular expressions. -/
def pyIsSpace (c : Char) : Bool :=
  c = ' ' || c = '\t' || c = '\n' || c = '\r' || c = '\x0b' || c = '\x0c'

/-- Substring test on character lists (used to embed the `NCTEST`
containment requirement of `NCTEST_CONFIG_RE`, and `re.search` of a
literal pattern). -/
def listContainsSub (needle : List Char) : List Char → Bool
  | [] => needle.isEmpty
  | c :: rest => needle.isPrefixOf (c :: rest) || listContainsSub needle rest

/-- The single-quote character, written by code point to keep source
lexing simple. -/
def squote : Char := Char.ofNat 39

/-- Scans the text after the `#if`/`#elif` prefix for the token captured
by `NCTEST_CONFIG_RE`'s group 1, `(\S*NCTEST\S*)` preceded by `\s+`.
Python's backtracking makes the greedy leading `.*` as long as possible,
so the captured token is the LAST maximal non-whitespace run that both
contains `NCTEST` and is preceded by at least one whitespace character.
Arguments: remaining characters, current token so far (reversed), whether
the current token was preceded by whitespace, and the best capture so far
as (token, suffix after the token). -/
def lastTokScan : List Char → List Char → Bool → Option (List Char × List Char) →
    Option (List Char × List Char)
  | [], cur, curPre, best =>
    if !cur.isEmpty && curPre && listContainsSub "NCTEST".toList cur.reverse then
      some (cur.reverse, [])
    else best
  | c :: rest, cur, curPre, best =>
    if pyIsSpace c then
      let newBest :=
        if !cur.isEmpty && curPre && listContainsSub "NCTEST".toList cur.reverse then
          some (cur.reverse, c :: rest)
        else best
      lastTokScan rest [] true newBest
    else
      lastTokScan rest (c :: cur) curPre best

/-- Embeds `NCTEST_CONFIG_RE.match(line)` for the pattern
`^#(?:el)?if.*\s+(\S*NCTEST\S*)\s*(//.*)?` (lines are taken without
their trailing newline).  Returns `(group1, group2)`: the captured
condition token and the optional trailing comment.  Per Python's greedy
backtracking the token is the last whitespace-preceded run containing
`NCTEST`, and the comment group matches exactly when the text after that
token, minus leading whitespace, starts with `//` (it then extends to the
end of the line). -/
def matchNCTest (line : String) : Option (String × Option String) :=
  let cs := line.toList
  let restOpt : Option (List Char) :=
    if "#elif".toList.isPrefixOf cs then some (cs.drop 5)
    else if "#if".toList.isPrefixOf cs then some (cs.drop 3)
    else none
  match restOpt with
  | none => none
  | some rest =>
    match lastTokScan rest [] false none with
    | none => none
    | some (tok, after) =>
      let afterWs := after.dropWhile pyIsSpace
      let comment :=
        if "//".toList.isPrefixOf afterWs then some (String.mk afterWs) else none
      some (String.mk tok, comment)

/-- Everything strictly before the last occurrence of `c` in the list
(the list is assumed to contain `c`). -/
def takeBeforeLast (c : Char) (l : List Char) : List Char :=
  ((l.reverse.dropWhile (fun d => !(d == c))).drop 1).reverse

/-- Everything up to and including the last occurrence of `c`. -/
def takeThroughLast (c : Char) (l : List Char) : List Char :=
  (l.reverse.dropWhile (fun d => !(d == c))).reverse

/-- Embeds `STRIP_DEFINED_RE.match(name)` followed by
`name = strip_result.group(1)` for the pattern `defined\((.*)\)`: when
the token starts with `defined(` and a `)` follows, the name becomes the
text between `defined(` and the LAST `)` (the greedy `.*`); otherwise the
token is kept unchanged. -/
def stripDefined (name : String) : String :=
  let cs := name.toList
  if "defined(".toList.isPrefixOf cs then
    let rest := cs.drop 8
    if rest.contains (Char.ofNat 41) then
      String.mk (takeBeforeLast (Char.ofNat 41) rest)
    else name
  else name

/-- Embeds `EXTRACT_EXPECTATION_RE.match(expectation_string)` for the
pattern `//\s*(\[.*\])`: the comment must start with `//`, then optional
whitespace, then a `[`; the captured group runs from that `[` through the
LAST `]` (greedy `.*`).  `none` embeds a failed match (which trips the
`assert match` in `ParseExpectation`). -/
def extractExpectation (s : String) : Option String :=
  let cs := s.toList
  if "//".toList.isPrefixOf cs then
    let rest := (cs.drop 2).dropWhile pyIsSpace
    match rest with
    | '[' :: _ =>
      if rest.contains ']' then some (String.mk (takeThroughLast ']' rest))
      else none
    | _ => none
  else none

/-- One escaped character inside a non-raw Python string literal with
quote character `q` (the subset of escapes the test expectations use;
unknown escapes keep the backslash, as Python does). -/
def pyEscape (q d : Char) : List Char :=
  if d = 'n' then ['\n']
  else if d = 't' then ['\t']
  else if d = 'r' then ['\r']
  else if d = '\\' then ['\\']
  else if d = squote || d = '"' then [d]
  else if d = q then [d]
  else ['\\', d]

/-- Parses the body of a Python string literal after its opening quote
`q`; `raw` marks an `r` prefix (backslash kept, but still escaping the
quote).  Returns the decoded value and the remaining characters, or
`none` on an unterminated literal. -/
def plStrBody (q : Char) (raw : Bool) : List Char → List Char →
    Option (String × List Char)
  | [], _ => none
  | c :: rest, acc =>
    if c = q then some (String.mk acc.reverse, rest)
    else if c = '\\' then
      match rest with
      | [] => none
      | d :: rest2 =>
        if raw then plStrBody q raw rest2 (d :: '\\' :: acc)
        else plStrBody q raw rest2 ((pyEscape q d).reverse ++ acc)
    else plStrBody q raw rest (c :: acc)

/-- Parses one Python string literal (optional `r`/`R` prefix, single- or
double-quoted). -/
def plString (cs : List Char) : Option (String × List Char) :=
  match cs with
  | c :: d :: rest =>
    if (c = 'r' || c = 'R') && (d = squote || d = '"') then plStrBody d true rest []
    else if c = squote || c = '"' then plStrBody c false (d :: rest) []
    else none
  | [c] => if c = squote || c = '"' then plStrBody c false [] [] else none
  | [] => none

/-- Parses the comma-separated elements of a bracketed list of string
literals, after the opening `[`.  `fuel` bounds the recursion (one unit
per element is ample).  Returns `none` on anything outside this
restricted literal grammar — which `ParseExpectation` turns into the
run-aborting error that `ast.literal_eval` plus the `type is list` /
`type is str` asserts produce in the source. -/
def plElems : Nat → List Char → List String → Option (List String)
  | 0, _, _ => none
  | fuel + 1, cs, acc =>
    let cs2 := cs.dropWhile pyIsSpace
    match cs2 with
    | ']' :: r => if (r.dropWhile pyIsSpace).isEmpty then some acc.reverse else none
    | _ =>
      match plString cs2 with
      | none => none
      | some (v, rest) =>
        let rest2 := rest.dropWhile pyIsSpace
        match rest2 with
        | ',' :: r2 => plElems fuel r2 (v :: acc)
        | ']' :: r2 =>
          if (r2.dropWhile pyIsSpace).isEmpty then some (v :: acc).reverse else none
        | _ => none

/-- Embeds `ast.literal_eval` restricted to the expectation grammar: a
bracketed list of Python string literals (see the design note on ad hoc
literal-list parsing).  Any other literal shape is rejected, embedding
both a `literal_eval` exception and the subsequent type asserts. -/
def parsePyStrList (s : String) : Option (List String) :=
  match s.toList with
  | '[' :: rest => plElems (s.length + 1) rest []
  | _ => none

/-- Embeds `re.compile(regex_str)`.  The pattern text is kept exactly;
the search predicate is abstracted as substring containment, since no
claim under verification depends on the regex engine itself (the
classification theorems quantify over arbitrary `RegexPat.search`
predicates). -/
def compilePattern (s : String) : RegexPat :=
  ⟨s, fun hay => listContainsSub s.toList hay.toList⟩

/-- Embeds `ParseExpectation(expectation_string)` (nocompile_driver.py
lines 95-119).  `none` input embeds a directive with no trailing comment
(`groups[1]` is Python `None`), on which the source's
`assert expectation_string is not None` fails; a comment that does not
match `EXTRACT_EXPECTATION_RE` fails `assert match`; a malformed literal
aborts inside `ast.literal_eval` or the type asserts.  All three abort
the whole run and are embedded as `Except.error`. -/
def ParseExpectation (expectation_string : Option String) :
    Except String (List RegexPat) :=
  match expectation_string with
  | none => Except.error "assert expectation_string is not None"
  | some s =>
    match extractExpectation s with
    | none => Except.error "assert match"
    | some lit =>
      match parsePyStrList lit with
      | none => Except.error "malformed expectation literal"
      | some strs => Except.ok (strs.map compilePattern)

/-- Splits a character list at every occurrence of `sep`, keeping empty
pieces, as Python's `str.split('_')` does. -/
def splitOnChar (sep : Char) : List Char → List Char → List (List Char)
  | [], cur => [cur.reverse]
  | c :: rest, cur =>
    if c = sep then cur.reverse :: splitOnChar sep rest []
    else splitOnChar sep rest (c :: cur)

/-- Capitalizes one word as Python's `str.capitalize` does: first
character upper-cased, the rest lower-cased. -/
def capitalizeWord (w : String) : String :=
  match w.toList with
  | [] => ""
  | c :: rest => String.mk (c.toUpper :: rest.map Char.toLower)

/-- Embeds the suite-name derivation of `ExtractTestConfigs`:
`os.path.splitext(os.path.basename(path))[0].split('_')`, each word
capitalized, concatenated after the fixed `NoCompile` label. -/
def suiteNameOf (path : String) : String :=
  let base := ((path.toList.reverse.takeWhile (fun c => !(c == '/'))).reverse)
  let stem := if base.contains '.' then takeBeforeLast '.' base else base
  let words := (splitOnChar '_' stem []).map String.mk
  "NoCompile" ++ String.join (words.map capitalizeWord)

/-- The implicit compiler sanity configuration that `ExtractTestConfigs`
always places first: the reserved name `NCTEST_SANITY` with
`expectations = None`. -/
def sanityConfig (suite : String) : TestConfig :=
  ⟨"NCTEST_SANITY", suite, none⟩

/-- Embeds the per-line loop of `ExtractTestConfigs` (lines 167-184): a
line matching `NCTEST_CONFIG_RE` contributes one configuration whose name
is the captured token with `defined(...)` stripped and whose expectations
come from `ParseExpectation` on the captured comment; a `ParseExpectation`
failure aborts the whole extraction. -/
def extractLoop (suite : String) : List String → Except String (List TestConfig)
  | [] => Except.ok []
  | line :: rest =>
    match matchNCTest line with
    | none => extractLoop suite rest
    | some (name0, comment) =>
      match ParseExpectation comment with
      | Except.error e => Except.error e
      | Except.ok exps =>
        match extractLoop suite rest with
        | Except.error e => Except.error e
        | Except.ok cfgs =>
          Except.ok ({ name := stripDefined name0, suite_name := suite,
                       expectations := some exps } :: cfgs)

/-- Embeds `ExtractTestConfigs(sourcefile_path)` (lines 122-185) on the
file's lines (newlines already stripped): the sanity configuration is
prepended to the configurations extracted from the directive lines in
line order. -/
def ExtractTestConfigs (sourcefile_path : String) (lines : List String) :
    Except String (List TestConfig) :=
  match extractLoop (suiteNameOf sourcefile_path) lines with
  | Except.error e => Except.error e
  | Except.ok cfgs => Except.ok (sanityConfig (suiteNameOf sourcefile_path) :: cfgs)

/-- True on `Except.error`, embedding a Python run aborted by an
assertion failure or exception. -/
def exceptIsError {ε α : Type} : Except ε α → Bool
  | Except.error _ => true
  | Except.ok _ => false

/-- The whitespace set of Python's `shlex` lexer (` \t\r\n`). -/
def shWs (c : Char) : Bool :=
  c = ' ' || c = '\t' || c = '\r' || c = '\n'

/-- Lexer mode of the `shlex.split` embedding: outside quotes, inside
single quotes, inside double quotes. -/
inductive ShMode where
  | norm
  | single
  | double

/-- Embeds Python's `shlex.split` (POSIX mode, whitespace splitting):
whitespace separates tokens; single quotes are literal; double quotes
allow `\` to escape `"` and `\` (any other escaped character keeps the
backslash); outside quotes `\` escapes the next character.  Arguments:
remaining characters, mode, whether a token is open (a closed empty
quote still yields an empty token), current token (reversed), tokens so
far.  `none` embeds the `ValueError` raised on an unclosed quote or
trailing escape, which aborts `StartTest` and the whole run. -/
def shlexRun : List Char → ShMode → Bool → List Char → List String →
    Option (List String)
  | [], ShMode.norm, inWord, cur, acc =>
    some (acc ++ if inWord then [String.mk cur.reverse] else [])
  | [], ShMode.single, _, _, _ => none
  | [], ShMode.double, _, _, _ => none
  | c :: rest, ShMode.norm, inWord, cur, acc =>
    if shWs c then
      if inWord then shlexRun rest ShMode.norm false [] (acc ++ [String.mk cur.reverse])
      else shlexRun rest ShMode.norm false [] acc
    else if c = squote then shlexRun rest ShMode.single true cur acc
    else if c = '"' then shlexRun rest ShMode.double true cur acc
    else if c = '\\' then
      match rest with
      | [] => none
      | d :: rest2 => shlexRun rest2 ShMode.norm true (d :: cur) acc
    else shlexRun rest ShMode.norm true (c :: cur) acc
  | c :: rest, ShMode.single, _, cur, acc =>
    if c = squote then shlexRun rest ShMode.norm true cur acc
    else shlexRun rest ShMode.single true (c :: cur) acc
  | c :: rest, ShMode.double, _, cur, acc =>
    if c = '"' then shlexRun rest ShMode.norm true cur acc
    else if c = '\\' then
      match rest with
      | [] => none
      | d :: rest2 =>
        if d = '"' || d = '\\' then shlexRun rest2 ShMode.double true (d :: cur) acc
        else shlexRun rest2 ShMode.double true (d :: '\\' :: cur) acc
    else shlexRun rest ShMode.double true (c :: cur) acc

/-- Embeds `shlex.split(cflags)` as used by `StartTest`. -/
def shlexSplit (s : String) : Option (List String) :=
  shlexRun s.toList ShMode.norm false [] []

/-- Plain whitespace splitting (Python's `str.split()` with no
argument).  This is what the claim under review calls
"whitespace-split"; it is compared against the source's `shlex.split`. -/
def wsSplitAux : List Char → List Char → List String
  | [], cur => if cur.isEmpty then [] else [String.mk cur.reverse]
  | c :: rest, cur =>
    if pyIsSpace c then
      if cur.isEmpty then wsSplitAux rest []
      else String.mk cur.reverse :: wsSplitAux rest []
    else wsSplitAux rest (c :: cur)

/-- Splits on runs of whitespace, dropping empties — the
"whitespace-split" reading of the shared-flags split. -/
def whitespaceSplit (s : String) : List String :=
  wsSplitAux s.toList []

/-- The compiler path that `StartTest` builds with `os.path.join` from
the script directory; the `os.path.dirname(os.path.realpath(__file__))`
prefix is abstracted away since every claim treats the path as an opaque
leading token. -/
def compilerPath : String :=
  "../third_party/llvm-build/Release+Asserts/bin/clang++"

/-- Embeds the command-line assembly of `StartTest` (lines 223-232) given
the already-split flags: compiler path, the split cflags, `-D<name>`
exactly when `expectations` is not `None`, then the fixed tail
`-std=c++11 -o /dev/null -c -x c++ <sourcefile>` in source order. -/
def buildCmdlineList (sourcefile_path : String) (flags : List String)
    (config : TestConfig) : List String :=
  [compilerPath] ++ flags ++
    (match config.expectations with
     | some _ => ["-D" ++ config.name]
     | none => []) ++
    ["-std=c++11", "-o", "/dev/null", "-c", "-x", "c++", sourcefile_path]

/-- The full command line of `StartTest` from the raw cflags string:
`shlex.split` then `buildCmdlineList`; `none` embeds a `shlex` lexing
error aborting the run. -/
def BuildCmdline (sourcefile_path cflags : String) (config : TestConfig) :
    Option (List String) :=
  (shlexSplit cflags).map (fun flags => buildCmdlineList sourcefile_path flags config)

/-- The command line the claim under review describes, modelled from the
spec's words: compiler path, whitespace-split shared flags, `-D<name>`
iff expectations are not `None`, the fixed language/standard flags, the
discard-output option, the compile-only option, and the source path, in
that stated order. -/
def claimCmdline (sourcefile_path cflags : String) (config : TestConfig) :
    List String :=
  [compilerPath] ++ whitespaceSplit cflags ++
    (if config.expectations.isSome then ["-D" ++ config.name] else []) ++
    ["-std=c++11", "-x", "c++"] ++ ["-o", "/dev/null"] ++ ["-c"] ++
    [sourcefile_path]

/-- Embeds `NCTEST_TERMINATE_TIMEOUT_SEC` (line 82). -/
def NCTEST_TERMINATE_TIMEOUT_SEC : Nat := 60

/-- Embeds `NCTEST_KILL_TIMEOUT_SEC = NCTEST_TERMINATE_TIMEOUT_SEC + 2`
(line 83). -/
def NCTEST_KILL_TIMEOUT_SEC : Nat := NCTEST_TERMINATE_TIMEOUT_SEC + 2

/-- Embeds the dictionary built by `StartTest` (lines 236-246) for
already-split flags: the command line joined with spaces, both deadlines
derived from the launch instant `now`, and zeroed `aborted_at` /
`finished_at`. -/
def StartTestWith (sourcefile_path : String) (flags : List String)
    (config : TestConfig) (now : Nat) : TestRun :=
  { name := config.name
    suite_name := config.suite_name
    cmdline := String.intercalate " " (buildCmdlineList sourcefile_path flags config)
    started_at := now
    terminate_timeout := now + NCTEST_TERMINATE_TIMEOUT_SEC
    kill_timeout := now + NCTEST_KILL_TIMEOUT_SEC
    aborted_at := 0
    finished_at := 0
    expectations := config.expectations }

/-- Embeds `StartTest(sourcefile_path, cflags, config)` (lines 188-246):
`shlex.split` the flags (a lexing error aborts the run), build the
command line, record the launch time and the two escalation deadlines. -/
def StartTest (sourcefile_path cflags : String) (config : TestConfig)
    (now : Nat) : Option TestRun :=
  (shlexSplit cflags).map (fun flags => StartTestWith sourcefile_path flags config now)

/-- The observable action the escalation loop takes on one in-flight test
during one pass of `CompleteAtLeastOneTest`: nothing, reap as finished,
`proc.terminate()`, or `proc.kill()`. -/
inductive EscAction where
  | noop
  | finish
  | terminate
  | kill
deriving DecidableEq

/-- Embeds the per-test branch chain of `CompleteAtLeastOneTest`
(lines 396-406) at poll instant `now`: a test whose process has exited
(`proc.poll() is not None`) is marked finished; otherwise if
`terminate_timeout < now` the process is terminated and `aborted_at`
overwritten; otherwise if `kill_timeout < now` it is killed and
`aborted_at` overwritten; otherwise nothing happens.  The branch order is
exactly the source's `if`/`elif`/`elif`. -/
def EscalationStep (test : TestRun) (procExited : Bool) (now : Nat) :
    EscAction × TestRun :=
  if procExited then (EscAction.finish, { test with finished_at := now })
  else if test.terminate_timeout < now then
    (EscAction.terminate, { test with aborted_at := now })
  else if test.kill_timeout < now then
    (EscAction.kill, { test with aborted_at := now })
  else (EscAction.noop, test)

/-- Iterates `EscalationStep` over a sequence of poll observations
`(procExited, now)` — one entry per pass of the `while` loop of
`CompleteAtLeastOneTest` over this test — collecting the actions taken
and the final test record. -/
def RunEscalation (test : TestRun) : List (Bool × Nat) → List EscAction × TestRun
  | [] => ([], test)
  | (exited, now) :: rest =>
    let step := EscalationStep test exited now
    let tail := RunEscalation step.2 rest
    (step.1 :: tail.1, tail.2)

/-- Embeds `config['name'].startswith('DISABLED_')` (line 451), the test
that marks a configuration as disabled. -/
def startsWithDisabled (name : String) : Bool :=
  "DISABLED_".toList.isPrefixOf name.toList

/-- State of `main`'s scheduling loop (lines 442-461): the descriptors
not yet admitted (in extraction order), the names of in-flight
invocations (`executing_tests`' keys), the names drained into
`finished_tests`, and the count of verdict entries already written for
disabled (skipped) configurations. -/
structure SchedState where
  pending : List TestConfig
  executing : List String
  finished : List String
  written : Nat

/-- The scheduler's initial state: every extracted configuration pending,
nothing in flight, nothing written. -/
def initSched (configs : List TestConfig) : SchedState :=
  ⟨configs, [], [], 0⟩

/-- One step of `main`'s scheduling loop, as a relation so that every
completion order an execution could produce is covered.
`admitDisabled` embeds the `DISABLED_` branch (line 451-452): the
configuration is recorded as skipped (one verdict entry) and never
started.  `admitStart` embeds lines 454-456: the next configuration is
started when a slot is free; the `assert test['name'] not in
executing_tests` guard blocks admission of a name currently in flight.
`drain` embeds one `CompleteAtLeastOneTest` call (and the final drain
loop of lines 460-461): a nonempty set of in-flight invocations finishes
and moves to the finished list; which ones finish is arbitrary
(`Perm`-nondeterminism), covering every completion order.  The relation
also allows drains below capacity, a superset of the source's schedules,
so universally quantified theorems cover the source. -/
inductive SchedStep (par : Nat) : SchedState → SchedState → Prop
  | admitDisabled (s : SchedState) (cfg : TestConfig) (rest : List TestConfig)
      (hp : s.pending = cfg :: rest)
      (hd : startsWithDisabled cfg.name = true) :
      SchedStep par s { s with pending := rest, written := s.written + 1 }
  | admitStart (s : SchedState) (cfg : TestConfig) (rest : List TestConfig)
      (hp : s.pending = cfg :: rest)
      (hd : startsWithDisabled cfg.name = false)
      (hcap : s.executing.length < par)
      (hdup : cfg.name ∉ s.executing) :
      SchedStep par s { s with pending := rest, executing := cfg.name :: s.executing }
  | drain (s : SchedState) (removed kept : List String)
      (hne : removed ≠ [])
      (hperm : s.executing.Perm (removed ++ kept)) :
      SchedStep par s { s with executing := kept, finished := s.finished ++ removed }

/-- Reachability through the scheduling loop. -/
def SchedReaches (par : Nat) : SchedState → SchedState → Prop :=
  Relation.ReflTransGen (SchedStep par)

/-- Number of verdict entries the run has produced once results are
processed: one skipped entry per disabled configuration (written during
admission) plus one entry per finished test — `ProcessTestResult` maps
each finished test to exactly one `Verdict` (lines 464-465), excluding
the header and the single Stats entry. -/
def reportEntryCount (s : SchedState) : Nat :=
  s.written + s.finished.length

/-- Deterministic run of `main`'s admission loop (lines 442-461) under
the completion schedule in which every in-flight compilation finishes
during each `CompleteAtLeastOneTest` call — one admissible execution of
the source.  Walks the configurations in order: at capacity, drain all;
a `DISABLED_` name is skipped without a name check; otherwise the
`assert test['name'] not in executing_tests` guard either aborts
(`Except.error`) or the test is started.  Returns the names of started
tests in finished order (the final drain empties the in-flight set). -/
def runAdmissionGo (par : Nat) : List TestConfig → List String → List String →
    Except String (List String)
  | [], executing, finished => Except.ok (finished ++ executing)
  | cfg :: rest, executing, finished =>
    let drained :=
      if par ≤ executing.length then (([] : List String), finished ++ executing)
      else (executing, finished)
    if startsWithDisabled cfg.name then
      runAdmissionGo par rest drained.1 drained.2
    else if drained.1.contains cfg.name then
      Except.error "assert test name not in executing_tests"
    else
      runAdmissionGo par rest (drained.1 ++ [cfg.name]) drained.2

/-- Entry point of the deterministic admission run. -/
def runAdmission (par : Nat) (configs : List TestConfig) :
    Except String (List String) :=
  runAdmissionGo par configs [] []

/-- A compiled pattern whose search matches every string (as `re.compile`
of the empty pattern does). -/
def alwaysPat : RegexPat := ⟨"", fun _ => true⟩

/-- A reaped test record that was aborted (`aborted_at = 5`), carries a
non-empty expectation list, and whose pattern matches everything. -/
def cexAbortedTest : TestRun :=
  ⟨"NCTEST_X", "S", "", 0, 60, 62, 5, 70, some [alwaysPat]⟩

/-- A non-aborted finished test record with one always-matching
expectation pattern. -/
def liveExpTest : TestRun :=
  ⟨"NCTEST_X", "S", "", 0, 60, 62, 0, 70, some [alwaysPat]⟩

/-- A non-aborted finished test record with an empty expectation list. -/
def emptyExpTest : TestRun :=
  ⟨"NCTEST_X", "S", "", 0, 60, 62, 0, 70, some []⟩

/-- A test launched at time 0: terminate deadline 60, kill deadline 62. -/
def escDemoTest : TestRun := StartTestWith "f.nc" [] (sanityConfig "S") 0

/-- The configuration list extracted from an empty source file named
`comptest.nc`: just the sanity case. -/
def demoCfgList : List TestConfig := [sanityConfig "NoCompileComptest"]

/-- Scheduler state after admitting the sanity case. -/
def demoS1 : SchedState := ⟨[], ["NCTEST_SANITY"], [], 0⟩

/-- Scheduler state after draining the sanity case. -/
def demoFinal : SchedState := ⟨[], [], ["NCTEST_SANITY"], 0⟩

/-- Two directive lines declaring the same case name. -/
def c7Lines : List String :=
  ["#ifdef NCTEST_DUP // []", "#ifdef NCTEST_DUP // []"]

/-- The configurations extracted from `c7Lines`: the sanity case followed
by two descriptors with the same name. -/
def c7Cfgs : List TestConfig :=
  [sanityConfig "NoCompileComptest",
   ⟨"NCTEST_DUP", "NoCompileComptest", some []⟩,
   ⟨"NCTEST_DUP", "NoCompileComptest", some []⟩]

/-- A cflags string containing a shell-quoted argument, on which
`shlex.split` and plain whitespace splitting disagree. -/
def c8CexCflags : String := "-DA=\"x y\""

/-- One directive line with a one-pattern expectation comment. -/
def c5DemoLines : List String := ["#ifdef NCTEST_FOO  // [\"x\"]"]

/-- The configurations extracted from `c5DemoLines`. -/
def c5DemoCfgs : List TestConfig :=
  [sanityConfig "NoCompileComptest",
   ⟨"NCTEST_FOO", "NoCompileComptest", some [compilePattern "x"]⟩]

/-- C1 counterexample: the claim's iff fails on an aborted (but reaped
and classified) invocation: exit code 1 and a matching pattern, yet the
verdict is the timeout `Fail`, not `Pass`, because `ProcessTestResult`
checks `aborted_at` before any expectation logic. -/
theorem c1_pass_iff_counterexample :
    cexAbortedTest.expectations = some [alwaysPat] ∧
    anyExpectationMatches [alwaysPat] "out" "err" = true ∧
    (1 : Int) ≠ 0 ∧
    ProcessTestResult cexAbortedTest "out" "err" 1 =
      Verdict.fail (FailReason.timedOut 0 5) none none ∧
    ProcessTestResult cexAbortedTest "out" "err" 1 ≠ Verdict.pass := by
  refine ⟨rfl, rfl, by decide, rfl, by decide⟩

/-- C1 (amended: restricted to non-aborted invocations): for a finished,
non-aborted invocation whose descriptor has a non-empty expectation
list, classification yields `Pass` iff the exit code is nonzero and some
expectation pattern matches the captured stdout or stderr; exit code 0
yields `Fail` with the unexpected-successful-compilation reason even
when a pattern would match; a nonzero exit code with no matching pattern
yields `Fail` carrying the unmatched pattern set in the reason. -/
theorem c1_classification_nonempty_expectations
    (t : TestRun) (out err : String) (rc : Int) (exps : List RegexPat)
    (hab : t.aborted_at = 0) (hex : t.expectations = some exps)
    (hne : exps ≠ []) :
    (ProcessTestResult t out err rc = Verdict.pass ↔
      rc ≠ 0 ∧ anyExpectationMatches exps out err = true)
    ∧ (rc = 0 →
        ProcessTestResult t out err rc =
          Verdict.fail FailReason.unexpectedSuccessfulCompilation
            (some out) (some err))
    ∧ (rc ≠ 0 → anyExpectationMatches exps out err = false →
        ProcessTestResult t out err rc =
          Verdict.fail
            (FailReason.expectationsDidNotMatch (exps.map (fun p => p.pattern)))
            (some out) (some err)) := by
  have hem : exps.isEmpty = false := by
    cases exps with
    | nil => exact absurd rfl hne
    | cons a l => rfl
  by_cases hrc : rc = 0
  · subst hrc
    refine ⟨?_, fun _ => ?_, fun h => absurd rfl h⟩
    · simp [ProcessTestResult, hab, hex]
    · simp [ProcessTestResult, hab, hex]
  · have key : ProcessTestResult t out err rc =
        match exps.find? (fun p => p.search out || p.search err) with
        | some _ => Verdict.pass
        | none =>
          Verdict.fail
            (FailReason.expectationsDidNotMatch (exps.map (fun p => p.pattern)))
            (some out) (some err) := by
      simp [ProcessTestResult, hab, hex, hrc, hem]
    have hany : anyExpectationMatches exps out err = true ↔
        (exps.find? (fun p => p.search out || p.search err)).isSome := by
      rw [anyExpectationMatches, List.any_eq_true, List.find?_isSome]
    refine ⟨?_, fun h => absurd h hrc, fun _ hnm => ?_⟩
    · cases hfind : exps.find? (fun p => p.search out || p.search err) with
      | none =>
        have hnot : ¬ (anyExpectationMatches exps out err = true) := by
          simp [hany, hfind]
        rw [key, hfind]
        simp [hnot, hrc]
      | some p =>
        have htrue : anyExpectationMatches exps out err = true := by
          simp [hany, hfind]
        rw [key, hfind]
        simp [htrue, hrc]
    · cases hfind : exps.find? (fun p => p.search out || p.search err) with
      | none => rw [key, hfind]
      | some p =>
        have htrue : anyExpectationMatches exps out err = true := by
          simp [hany, hfind]
        rw [htrue] at hnm
        exact absurd hnm (by simp)

/-- C1 witness: the amended classification theorem applied to a concrete
non-aborted invocation with one always-matching pattern. -/
theorem c1_classification_witness :
    (ProcessTestResult liveExpTest "out" "err" 1 = Verdict.pass ↔
      (1 : Int) ≠ 0 ∧ anyExpectationMatches [alwaysPat] "out" "err" = true)
    ∧ ((1 : Int) = 0 →
        ProcessTestResult liveExpTest "out" "err" 1 =
          Verdict.fail FailReason.unexpectedSuccessfulCompilation
            (some "out") (some "err"))
    ∧ ((1 : Int) ≠ 0 → anyExpectationMatches [alwaysPat] "out" "err" = false →
        ProcessTestResult liveExpTest "out" "err" 1 =
          Verdict.fail
            (FailReason.expectationsDidNotMatch
              ([alwaysPat].map (fun p => p.pattern)))
            (some "out") (some "err")) :=
  c1_classification_nonempty_expectations liveExpTest "out" "err" 1 [alwaysPat]
    rfl rfl (by simp)

/-- C2: a finished, non-aborted invocation whose descriptor has an empty
expectation list is classified `Pass` whenever the exit code is nonzero
— for every captured output — and `Fail` (unexpected successful
compilation) whenever the exit code is 0. -/
theorem c2_empty_expectations_classification
    (t : TestRun) (out err : String) (rc : Int)
    (hab : t.aborted_at = 0) (hex : t.expectations = some []) :
    (rc ≠ 0 → ProcessTestResult t out err rc = Verdict.pass) ∧
    (rc = 0 → ProcessTestResult t out err rc =
      Verdict.fail FailReason.unexpectedSuccessfulCompilation
        (some out) (some err)) := by
  constructor <;> intro h <;> simp [ProcessTestResult, hab, hex, h]

/-- C2 witness: the empty-expectation theorem applied to a concrete
record. -/
theorem c2_empty_expectations_witness :
    ((1 : Int) ≠ 0 → ProcessTestResult emptyExpTest "o" "e" 1 = Verdict.pass) ∧
    ((1 : Int) = 0 → ProcessTestResult emptyExpTest "o" "e" 1 =
      Verdict.fail FailReason.unexpectedSuccessfulCompilation
        (some "o") (some "e")) :=
  c2_empty_expectations_classification emptyExpTest "o" "e" 1 rfl rfl

/-- C3 (code bug, evaluated at the failing input): for a test launched at
time 0 whose process is still alive at polls 61 and 63, the escalation
loop of `CompleteAtLeastOneTest` sends the graceful terminate signal at
BOTH polls (not at most once), overwrites `aborted_at` from 61 to 63 (not
set at most once), and never executes the hard-kill branch even past the
hard deadline 62 — because `terminate_timeout < now` is tested before
`kill_timeout < now` and always holds whenever the latter does. -/
theorem c3_escalation_eval :
    (RunEscalation escDemoTest [(false, 61), (false, 63)]).1 =
      [EscAction.terminate, EscAction.terminate] ∧
    (RunEscalation escDemoTest [(false, 61)]).2.aborted_at = 61 ∧
    (RunEscalation escDemoTest [(false, 61), (false, 63)]).2.aborted_at = 63 ∧
    EscAction.kill ∉ (RunEscalation escDemoTest [(false, 61), (false, 63)]).1 := by
  refine ⟨rfl, rfl, rfl, by decide⟩

/-- C4 (code bug, evaluated at the failing input): a case directive line
with no trailing comment does match `NCTEST_CONFIG_RE` with comment group
`None`, but `ParseExpectation` then fails its
`assert expectation_string is not None`, aborting the whole extraction —
instead of producing a descriptor with empty expectations. -/
theorem c4_missing_comment_aborts_extraction :
    matchNCTest "#ifdef NCTEST_FOO" = some ("NCTEST_FOO", none) ∧
    ParseExpectation none =
      Except.error "assert expectation_string is not None" ∧
    exceptIsError (ExtractTestConfigs "nctest.cc" ["#ifdef NCTEST_FOO"]) = true := by
  refine ⟨by decide, rfl, by decide⟩

/-- Splitting the line list splits the extracted configurations: the
extraction loop processes lines in order, so configurations from a
prefix of lines precede those from the rest. -/
lemma extractLoop_append (suite : String) (ls1 ls2 : List String) :
    extractLoop suite (ls1 ++ ls2) =
      match extractLoop suite ls1 with
      | Except.error e => Except.error e
      | Except.ok c1 =>
        match extractLoop suite ls2 with
        | Except.error e => Except.error e
        | Except.ok c2 => Except.ok (c1 ++ c2) := by
  induction ls1 with
  | nil =>
    simp only [List.nil_append, extractLoop]
    cases extractLoop suite ls2 <;> rfl
  | cons l rest ih =>
    simp only [List.cons_append, extractLoop]
    cases hm : matchNCTest l with
    | none => exact ih
    | some pr =>
      obtain ⟨name0, comment⟩ := pr
      cases hp : ParseExpectation comment with
      | error e => simp [hp]
      | ok exps =>
        simp only [hp, List.append_eq, ih]
        cases h1 : extractLoop suite rest with
        | error e => simp [h1]
        | ok c1 =>
          cases h2 : extractLoop suite ls2 with
          | error e => simp [h1, h2]
          | ok c2 => simp [h1, h2]

/-- C5: whenever extraction succeeds on an opened source file, the
resulting configuration sequence is non-empty, its first element is the
implicit sanity descriptor (reserved name `NCTEST_SANITY`, expectations
`None`), and the descriptors extracted from directive lines follow it in
line order: any split of the lines splits the tail accordingly. -/
theorem c5_sanity_descriptor_first
    (path : String) (lines : List String) (cfgs : List TestConfig)
    (h : ExtractTestConfigs path lines = Except.ok cfgs) :
    cfgs ≠ [] ∧
    cfgs.head? = some (sanityConfig (suiteNameOf path)) ∧
    (∀ ls1 ls2, lines = ls1 ++ ls2 →
      ∃ c1 c2, extractLoop (suiteNameOf path) ls1 = Except.ok c1 ∧
        extractLoop (suiteNameOf path) ls2 = Except.ok c2 ∧
        cfgs = sanityConfig (suiteNameOf path) :: (c1 ++ c2)) := by
  unfold ExtractTestConfigs at h
  cases hext : extractLoop (suiteNameOf path) lines with
  | error e => rw [hext] at h; exact absurd h (by simp)
  | ok rest =>
    rw [hext] at h
    have hc : cfgs = sanityConfig (suiteNameOf path) :: rest := by
      cases h; rfl
    subst hc
    refine ⟨by simp, rfl, ?_⟩
    intro ls1 ls2 hsplit
    subst hsplit
    rw [extractLoop_append] at hext
    cases h1 : extractLoop (suiteNameOf path) ls1 with
    | error e => rw [h1] at hext; exact absurd hext (by simp)
    | ok c1 =>
      rw [h1] at hext
      cases h2 : extractLoop (suiteNameOf path) ls2 with
      | error e => rw [h2] at hext; exact absurd hext (by simp)
      | ok c2 =>
        rw [h2] at hext
        refine ⟨c1, c2, rfl, rfl, ?_⟩
        cases hext; rfl

/-- C5 witness: the sanity-first theorem applied to a concrete file with
one directive line. -/
theorem c5_sanity_descriptor_first_witness :
    c5DemoCfgs ≠ [] ∧
    c5DemoCfgs.head? = some (sanityConfig (suiteNameOf "comptest.nc")) :=
  ⟨(c5_sanity_descriptor_first "comptest.nc" c5DemoLines c5DemoCfgs rfl).1,
   (c5_sanity_descriptor_first "comptest.nc" c5DemoLines c5DemoCfgs rfl).2.1⟩

/-- Conservation of descriptors across one scheduler step: verdicts
written for disabled cases, in-flight names, finished names and pending
descriptors together always account for every admitted descriptor. -/
lemma schedStep_count {par : Nat} {s1 s2 : SchedState} (h : SchedStep par s1 s2) :
    s2.written + s2.executing.length + s2.finished.length + s2.pending.length =
      s1.written + s1.executing.length + s1.finished.length + s1.pending.length := by
  cases h with
  | admitDisabled cfg rest hp hd =>
    simp [hp]
    omega
  | admitStart cfg rest hp hd hcap hdup =>
    simp [hp]
    omega
  | drain removed kept hne hperm =>
    have hlen := hperm.length_eq
    simp [List.length_append] at hlen
    simp
    omega

/-- The descriptor-conservation quantity is invariant along any
reachable sequence of scheduler steps. -/
lemma schedReaches_count {par : Nat} {s1 s2 : SchedState}
    (h : SchedReaches par s1 s2) :
    s2.written + s2.executing.length + s2.finished.length + s2.pending.length =
      s1.written + s1.executing.length + s1.finished.length + s1.pending.length := by
  induction h with
  | refl => rfl
  | tail hab hbc ih => rw [schedStep_count hbc, ih]

/-- C6: in every completed run (all descriptors admitted, in-flight set
drained empty), the number of verdict entries written — one skipped
entry per disabled descriptor plus one classifier verdict per finished
test, excluding the header and the Stats entry — equals the number of
extracted descriptors including the implicit sanity case, for every
completion order the drain steps could take. -/
theorem c6_verdict_count_eq_descriptor_count
    (par : Nat) (path : String) (lines : List String)
    (cfgs : List TestConfig) (s : SchedState)
    (_hext : ExtractTestConfigs path lines = Except.ok cfgs)
    (hr : SchedReaches par (initSched cfgs) s)
    (hpend : s.pending = []) (hexec : s.executing = []) :
    reportEntryCount s = cfgs.length := by
  have inv := schedReaches_count hr
  rw [reportEntryCount]
  rw [hpend, hexec] at inv
  simp [initSched] at inv
  omega

/-- A concrete completed run: the sanity case extracted from an empty
file is admitted and then drained. -/
lemma demoReaches : SchedReaches 1 (initSched demoCfgList) demoFinal := by
  have step1 : SchedStep 1 (initSched demoCfgList) demoS1 :=
    SchedStep.admitStart _ (sanityConfig "NoCompileComptest") [] rfl (by decide)
      (by decide) (by decide)
  have step2 : SchedStep 1 demoS1 demoFinal :=
    SchedStep.drain _ ["NCTEST_SANITY"] [] (List.cons_ne_nil _ _) (List.Perm.refl _)
  exact Relation.ReflTransGen.head step1
    (Relation.ReflTransGen.head step2 Relation.ReflTransGen.refl)

/-- C6 witness: the count theorem applied to a completed concrete run of
the single sanity case extracted from an empty file. -/
theorem c6_verdict_count_witness : reportEntryCount demoFinal = demoCfgList.length :=
  c6_verdict_count_eq_descriptor_count 1 "comptest.nc" [] demoCfgList demoFinal
    rfl demoReaches rfl rfl

/-- C7 counterexample: a run extracted from two directives with the same
case name completes past admission without any assert failure, under the
admissible schedule in which each in-flight compilation finishes during
the blocking drain: with parallelism 1 the first `NCTEST_DUP` invocation
has already left `executing_tests` when the second is admitted, so
`assert test['name'] not in executing_tests` never fires, and the
finished run contains duplicate names.  (With parallelism 3 the same
duplicate IS rejected, because its namesake is still in flight.) -/
theorem c7_duplicate_admitted_counterexample :
    ExtractTestConfigs "comptest.nc" c7Lines = Except.ok c7Cfgs ∧
    c7Cfgs.map TestConfig.name = ["NCTEST_SANITY", "NCTEST_DUP", "NCTEST_DUP"] ∧
    runAdmission 1 c7Cfgs =
      Except.ok ["NCTEST_SANITY", "NCTEST_DUP", "NCTEST_DUP"] ∧
    ¬ (["NCTEST_SANITY", "NCTEST_DUP", "NCTEST_DUP"] : List String).Nodup ∧
    runAdmission 3 c7Cfgs =
      Except.error "assert test name not in executing_tests" := by
  refine ⟨rfl, rfl, rfl, by decide, rfl⟩

/-- C7 (amended): the duplicate-name assert guards only the in-flight
set: in every reachable scheduler state the names of simultaneously
executing invocations are distinct — admission of a name currently in
flight is blocked by `assert test['name'] not in executing_tests` — but
a duplicate whose earlier namesake has already finished (or is disabled)
is admitted without failure. -/
theorem c7_inflight_names_nodup
    (par : Nat) (configs : List TestConfig) (s : SchedState)
    (hr : SchedReaches par (initSched configs) s) :
    s.executing.Nodup := by
  induction hr with
  | refl => simp [initSched]
  | tail hab hbc ih =>
    cases hbc with
    | admitDisabled cfg rest hp hd => exact ih
    | admitStart cfg rest hp hd hcap hdup =>
      exact List.nodup_cons.mpr ⟨hdup, ih⟩
    | drain removed kept hne hperm =>
      have hall : (removed ++ kept).Nodup := (hperm.nodup_iff).mp ih
      exact hall.of_append_right

/-- C7 witness: the in-flight uniqueness invariant applied to a concrete
completed run. -/
theorem c7_inflight_names_nodup_witness : demoFinal.executing.Nodup :=
  c7_inflight_names_nodup 1 demoCfgList demoFinal demoReaches

/-- C8 counterexample: on a cflags string containing a shell-quoted
argument, the source's `shlex.split` (quote-aware) and the claim's
whitespace split disagree, so the launcher's argument vector differs
from the claimed one; the fixed tail also places the language flags
`-x c++` after `-c`, not with `-std=c++11`. -/
theorem c8_cmdline_counterexample :
    BuildCmdline "f.nc" c8CexCflags (sanityConfig "S") =
      some [compilerPath, "-DA=x y",
            "-std=c++11", "-o", "/dev/null", "-c", "-x", "c++", "f.nc"] ∧
    claimCmdline "f.nc" c8CexCflags (sanityConfig "S") =
      [compilerPath, "-DA=\"x", "y\"",
       "-std=c++11", "-x", "c++", "-o", "/dev/null", "-c", "f.nc"] ∧
    BuildCmdline "f.nc" c8CexCflags (sanityConfig "S") ≠
      some (claimCmdline "f.nc" c8CexCflags (sanityConfig "S")) := by
  refine ⟨rfl, rfl, by decide⟩

/-- C8 (amended): the launcher builds the argument vector as the
compiler path, then the shell-quote-aware (`shlex`) split of the shared
flags, then `-D<name>` iff the descriptor's expectations are not `None`
(so the sanity case gets no define), then the fixed tail: the standard
flag, the discard-output option, the compile-only option, the language
flags and the source path, in source order. -/
theorem c8_cmdline_structure
    (sourcefile_path cflags : String) (config : TestConfig)
    (flags : List String) (hs : shlexSplit cflags = some flags) :
    (config.expectations = none →
      BuildCmdline sourcefile_path cflags config =
        some ([compilerPath] ++ flags ++
          ["-std=c++11", "-o", "/dev/null", "-c", "-x", "c++", sourcefile_path])) ∧
    (∀ exps, config.expectations = some exps →
      BuildCmdline sourcefile_path cflags config =
        some ([compilerPath] ++ flags ++ ["-D" ++ config.name] ++
          ["-std=c++11", "-o", "/dev/null", "-c", "-x", "c++", sourcefile_path])) := by
  constructor
  · intro h
    simp [BuildCmdline, hs, buildCmdlineList, h]
  · intro exps h
    simp [BuildCmdline, hs, buildCmdlineList, h]

/-- C8 witness: the amended command-line theorem applied to concrete
flags and a concrete descriptor. -/
theorem c8_cmdline_structure_witness :
    ((sanityConfig "S").expectations = none →
      BuildCmdline "f.nc" "-O2" (sanityConfig "S") =
        some ([compilerPath] ++ ["-O2"] ++
          ["-std=c++11", "-o", "/dev/null", "-c", "-x", "c++", "f.nc"])) ∧
    (∀ exps, (sanityConfig "S").expectations = some exps →
      BuildCmdline "f.nc" "-O2" (sanityConfig "S") =
        some ([compilerPath] ++ ["-O2"] ++ ["-D" ++ (sanityConfig "S").name] ++
          ["-std=c++11", "-o", "/dev/null", "-c", "-x", "c++", "f.nc"])) :=
  c8_cmdline_structure "f.nc" "-O2" (sanityConfig "S") ["-O2"] rfl

/-- One escalation step never changes a test's deadlines. -/
lemma escStep_preserves_deadlines (t : TestRun) (ex : Bool) (now : Nat) :
    (EscalationStep t ex now).2.terminate_timeout = t.terminate_timeout ∧
    (EscalationStep t ex now).2.kill_timeout = t.kill_timeout := by
  unfold EscalationStep
  split
  · exact ⟨rfl, rfl⟩
  · split
    · exact ⟨rfl, rfl⟩
    · split
      · exact ⟨rfl, rfl⟩
      · exact ⟨rfl, rfl⟩

/-- One escalation step never takes the kill action when the terminate
deadline does not exceed the kill deadline: the kill branch requires
`now ≤ terminate_timeout` and `kill_timeout < now` at once. -/
lemma escStep_no_kill (t : TestRun) (ex : Bool) (now : Nat)
    (hle : t.terminate_timeout ≤ t.kill_timeout) :
    (EscalationStep t ex now).1 ≠ EscAction.kill := by
  unfold EscalationStep
  split
  · intro h; cases h
  · split
    · intro h; cases h
    · split
      · rename_i hterm hkill
        omega
      · intro h; cases h

/-- Iterated escalation never kills while the deadline ordering holds. -/
lemma runEscalation_no_kill (obs : List (Bool × Nat)) :
    ∀ (t : TestRun), t.terminate_timeout ≤ t.kill_timeout →
      EscAction.kill ∉ (RunEscalation t obs).1 := by
  induction obs with
  | nil => intro t hle; simp [RunEscalation]
  | cons ob rest ih =>
    intro t hle
    obtain ⟨ex, now⟩ := ob
    simp only [RunEscalation, List.mem_cons]
    intro hmem
    cases hmem with
    | inl h => exact escStep_no_kill t ex now hle h.symm
    | inr h =>
      have hpres := escStep_preserves_deadlines t ex now
      exact ih (EscalationStep t ex now).2 (by rw [hpres.1, hpres.2]; exact hle) h

/-- C9: the hard-kill branch of the escalation loop is unreachable for
every invocation the launcher starts: `StartTest` always sets
`kill_timeout = terminate_timeout + 2`, and since the terminate check
precedes the kill check, any poll instant past the kill deadline already
satisfies the terminate branch, so `proc.kill()` is never executed in
any run. -/
theorem c9_kill_branch_unreachable
    (sourcefile_path cflags : String) (config : TestConfig) (now : Nat)
    (t : TestRun) (obs : List (Bool × Nat))
    (hstart : StartTest sourcefile_path cflags config now = some t) :
    EscAction.kill ∉ (RunEscalation t obs).1 := by
  have hle : t.terminate_timeout ≤ t.kill_timeout := by
    unfold StartTest at hstart
    cases hs : shlexSplit cflags with
    | none => rw [hs] at hstart; exact absurd hstart (by simp)
    | some flags =>
      rw [hs] at hstart
      have ht : StartTestWith sourcefile_path flags config now = t := by
        simpa using hstart
      subst ht
      simp only [StartTestWith, NCTEST_KILL_TIMEOUT_SEC,
        NCTEST_TERMINATE_TIMEOUT_SEC]
      omega
  exact runEscalation_no_kill obs t hle

/-- C9 witness: the kill-unreachability theorem applied to a concretely
launched sanity invocation polled twice past both deadlines. -/
theorem c9_kill_branch_unreachable_witness :
    EscAction.kill ∉
      (RunEscalation (StartTestWith "f.nc" [] (sanityConfig "S") 0)
        [(false, 100), (false, 200)]).1 :=
  c9_kill_branch_unreachable "f.nc" "" (sanityConfig "S") 0
    (StartTestWith "f.nc" [] (sanityConfig "S") 0) [(false, 100), (false, 200)] rfl

/-- Conservation of launchable work across one scheduler step: in-flight
plus finished plus the non-disabled part of pending is invariant. -/
lemma schedStep_live_count {par : Nat} {s1 s2 : SchedState}
    (h : SchedStep par s1 s2) :
    s2.executing.length + s2.finished.length +
      (s2.pending.filter (fun c => !(startsWithDisabled c.name))).length =
    s1.executing.length + s1.finished.length +
      (s1.pending.filter (fun c => !(startsWithDisabled c.name))).length := by
  cases h with
  | admitDisabled cfg rest hp hd =>
    simp [hp, List.filter_cons, hd]
  | admitStart cfg rest hp hd hcap hdup =>
    simp [hp, List.filter_cons, hd]
    omega
  | drain removed kept hne hperm =>
    have hlen := hperm.length_eq
    simp [List.length_append] at hlen
    simp
    omega

/-- A filtered list headed by an element satisfying the predicate is
non-empty. -/
lemma filter_cons_pos {α : Type} (p : α → Bool) (a : α) (l : List α)
    (h : p a = true) : 0 < ((a :: l).filter p).length := by
  simp [List.filter_cons, h]

/-- The launchable-work quantity is invariant along any reachable
sequence of scheduler steps. -/
lemma schedReaches_live_count {par : Nat} {s1 s2 : SchedState}
    (h : SchedReaches par s1 s2) :
    s2.executing.length + s2.finished.length +
      (s2.pending.filter (fun c => !(startsWithDisabled c.name))).length =
    s1.executing.length + s1.finished.length +
      (s1.pending.filter (fun c => !(startsWithDisabled c.name))).length := by
  induction h with
  | refl => rfl
  | tail hab hbc ih => rw [schedStep_live_count hbc, ih]

/-- C10: every completed run of an extracted configuration list has a
non-empty finished list when it reaches the stats-writing step, so
`finished_tests[0]['suite_name']` cannot fail: the implicit sanity
descriptor's reserved name `NCTEST_SANITY` does not carry the
`DISABLED_` prefix, so at least one invocation is launched, drained and
placed in the finished list. -/
theorem c10_finished_nonempty
    (par : Nat) (path : String) (lines : List String)
    (cfgs : List TestConfig) (s : SchedState)
    (hext : ExtractTestConfigs path lines = Except.ok cfgs)
    (hr : SchedReaches par (initSched cfgs) s)
    (hpend : s.pending = []) (hexec : s.executing = []) :
    s.finished ≠ [] := by
  have hc : ∃ rest, cfgs = sanityConfig (suiteNameOf path) :: rest := by
    unfold ExtractTestConfigs at hext
    cases hl : extractLoop (suiteNameOf path) lines with
    | error e => rw [hl] at hext; exact absurd hext (by simp)
    | ok r =>
      rw [hl] at hext
      exact ⟨r, by cases hext; rfl⟩
  obtain ⟨rest, hcfgs⟩ := hc
  have inv := schedReaches_live_count hr
  have hpos : 0 < (cfgs.filter (fun c => !(startsWithDisabled c.name))).length := by
    rw [hcfgs]
    exact filter_cons_pos _ _ _ rfl
  intro hfin
  rw [hpend, hexec, hfin] at inv
  simp only [initSched, List.length_nil, List.filter_nil] at inv
  omega

/-- C10 witness: the non-empty-finished theorem applied to a concrete
completed run. -/
theorem c10_finished_nonempty_witness : demoFinal.finished ≠ [] :=
  c10_finished_nonempty 1 "comptest.nc" [] demoCfgList demoFinal rfl
    demoReaches rfl rfl
